import Mathlib

/-!
Shallow embedding of the streaming feature-extraction pipeline of
`src/script.js`: the `Tracker` firing gate, the bounded frequency-frame
queue maintained by `BrowserFftFeatureExtractor.onAudioFrame`, the
flattening and tensor-shaping helpers `flattenQueue` and
`getInputTensorFromFrequencyData`, the `normalize` input conditioner, and
the score aggregation done by the recognition callback together with
`showMP3Result`.

JavaScript numbers are modelled by `Rat` (no claim depends on binary
floating-point rounding); the sentinel value `-Infinity` that the analyser
produces for a silent frame is modelled by a dedicated constructor of
`FVal`.  Code that throws is modelled with `Except`, or, where JavaScript
mutates fields before throwing, by returning the mutated state next to an
optional error.
-/

/-- One scalar of frequency- or time-domain data: either a finite number or
the `-Infinity` sentinel the analyser yields while there is no signal. -/
inductive FVal where
  | fin (q : Rat)
  | negInf
deriving DecidableEq, Repr

/-- `Float32Array.prototype.set(src, offset)`: overwrite `target` from index
`offset` on with the elements of `src`.  (JavaScript throws a `RangeError`
when `src` does not fit; all uses below stay within bounds, where this
model agrees with the JavaScript behaviour.) -/
def setAt (target src : List FVal) (offset : Nat) : List FVal :=
  target.take offset ++ src ++ target.drop (offset + src.length)

/-- The body of the `queue.forEach((data, i) => freqData.set(data, i * frameSize))`
loop of `flattenQueue` (src/script.js lines 8-13): write each frame `f` of
the queue at offset `start * frameSize` of the accumulator, `start` counting
the frames already written. -/
def writeFrames (frameSize : Nat) (start : Nat) (acc : List FVal) :
    List (List FVal) → List FVal
  | [] => acc
  | f :: fs => writeFrames frameSize (start + 1) (setAt acc f (start * frameSize)) fs

/-- `flattenQueue` (src/script.js lines 8-13): allocate a zeroed buffer of
`queue.length * queue[0].length` scalars and copy frame `i` at offset
`i * frameSize`. -/
def flattenQueue (queue : List (List FVal)) : List FVal :=
  let frameSize := (queue.headD []).length
  writeFrames frameSize 0 (List.replicate (queue.length * frameSize) (FVal.fin 0)) queue

/-- `tf.util.sizeFromShape`: the number of elements of a tensor of the given
shape, i.e. the product of the extents. -/
def sizeFromShape (shape : List Nat) : Nat := shape.prod

/-- `getInputTensorFromFrequencyData` (src/script.js lines 23-27): allocate
a zeroed buffer of `sizeFromShape shape` scalars and copy `freqData` into
its tail, i.e. at offset `vals.length - freqData.length` (right-aligned,
zero padding on the left). -/
def getInputTensorFromFrequencyData (freqData : List FVal) (shape : List Nat) :
    List FVal :=
  setAt (List.replicate (sizeFromShape shape) (FVal.fin 0)) freqData
    (sizeFromShape shape - freqData.length)

/-- The `Tracker` of src/script.js lines 29-48: a periodic firing gate with
temporary suppression.  `counter` starts at 0 and only `tick` advances it. -/
structure Tracker where
  period : Int
  suppressionTime : Int
  counter : Int
  suppressionOnset : Option Int
deriving DecidableEq, Repr

/-- JavaScript `%` (remainder truncated towards zero), as used by
`Tracker.tick` on the counter.  For the non-negative counters the tracker
actually reaches it agrees with `Int.emod`. -/
def jsRem (a b : Int) : Int := Int.tmod a b

/-- The `Tracker` constructor (src/script.js lines 30-35): a `null`/omitted
`suppressionPeriod` defaults to 0; the `tf.util.assert` rejects a
non-positive period (and checks nothing else). -/
def Tracker.make (period : Int) (suppressionPeriod : Option Int) :
    Except String Tracker :=
  let suppressionTime := suppressionPeriod.getD 0
  if 0 < period then
    Except.ok { period := period, suppressionTime := suppressionTime,
                counter := 0, suppressionOnset := none }
  else
    Except.error "Expected period to be positive"

/-- `Tracker.tick` (src/script.js lines 37-43): advance the counter, then
fire iff the counter is a multiple of the period and either no suppression
onset is recorded or the ticks elapsed since it strictly exceed the
suppression time. -/
def Tracker.tick (t : Tracker) : Tracker × Bool :=
  let c := t.counter + 1
  let shouldFire :=
    (jsRem c t.period == 0) &&
      (match t.suppressionOnset with
       | none => true
       | some onset => decide (c - onset > t.suppressionTime))
  ({ t with counter := c }, shouldFire)

/-- `Tracker.suppress` (src/script.js lines 45-47): record the current
counter as the suppression onset. -/
def Tracker.suppress (t : Tracker) : Tracker :=
  { t with suppressionOnset := some t.counter }

/-- An observable call made on a `Tracker` after construction. -/
inductive TEvent where
  | tick
  | suppress
deriving DecidableEq, Repr

/-- Run a sequence of `tick`/`suppress` calls against a tracker (the Bool
returned by each `tick` is dropped; it is recovered from the history by
`Tracker.run` theorems). -/
def Tracker.run (t : Tracker) : List TEvent → Tracker
  | [] => t
  | TEvent.tick :: es => (t.tick.1).run es
  | TEvent.suppress :: es => (t.suppress).run es

/-- Number of `tick` events in a call history. -/
def tickCount (es : List TEvent) : Int :=
  (es.countP (fun e => decide (e = TEvent.tick)) : Nat)

/-- The counter value at the moment of the last `suppress` of the history
(counting from a fresh tracker): the number of `tick`s preceding the last
`suppress`, or `none` when the history holds no `suppress`. -/
def lastOnset : List TEvent → Option Int
  | [] => none
  | TEvent.tick :: es => (lastOnset es).map (fun o => o + 1)
  | TEvent.suppress :: es => some ((lastOnset es).getD 0)

/-- Errors thrown by the extractor at runtime: the explicit illegal-state
`Error`s of `start`/`stop`, and the `TypeError` a JavaScript engine raises
when a method is called on an `undefined` field. -/
inductive JsError where
  | illegalState (msg : String)
  | typeError (msg : String)
deriving DecidableEq, Repr

/-- `Math.round` on a rational: JavaScript rounds half towards positive
infinity. -/
def jsRound (q : Rat) : Int := ⌊q + 1 / 2⌋

/-- The `freqDataQueue` maintenance of `onAudioFrame` (src/script.js lines
114 and 119-121): append the truncated frame, then `shift()` the oldest
frame when the length exceeds `numFrames`. -/
def pushFrame (numFrames : Nat) (queue : List (List FVal)) (frame : List FVal) :
    List (List FVal) :=
  let q := queue ++ [frame]
  if numFrames < q.length then q.tail else q

/-- The fields of a `BrowserFftFeatureExtractor` that the streaming state
machine reads or writes.  Configuration fields (`numFrames`,
`columnTruncateLength`, `fftSize`, sizes taken as naturals since they come
from the model's integer input shape) are set at construction and never
change; `frameIntervalTask` is the recurring sampling task handle (`none` =
idle); `audioContext` mirrors the `this.audioContext` field, which no code
in the repository ever assigns; `tracker` is created by `start` (before the
first `start` it holds a placeholder, mirroring the `undefined` field that
no code reads while idle). -/
structure ExtractorState where
  numFrames : Nat
  columnTruncateLength : Nat
  fftSize : Nat
  sampleRateHz : Rat
  frameDurationMillis : Rat
  overlapFactor : Rat
  suppressionTimeMillis : Rat
  includeRawAudio : Bool
  frameIntervalTask : Option Unit
  audioContext : Option Unit
  freqDataQueue : List (List FVal)
  timeDataQueue : List (List FVal)
  tracker : Tracker
deriving DecidableEq, Repr

/-- `BrowserFftFeatureExtractor.start` (src/script.js lines 88-106): throws
illegal-state when a sampling task is already running; otherwise resets the
queues, creates the `Tracker` with `period = max(1, round(numFrames * (1 -
overlapFactor)))` and suppression `round(suppressionTimeMillis /
frameDurationMillis)` (the constructor's assert passes because the period
is at least 1), and schedules the recurring sampling task.  The analyser
wiring is an effect on the external audio node and has no state here. -/
def ExtractorState.start (s : ExtractorState) :
    ExtractorState × Option JsError :=
  if s.frameIntervalTask.isSome then
    (s, some (JsError.illegalState "Cannot start already-started BrowserFftFeatureExtractor"))
  else
    let period : Int := max 1 (jsRound ((s.numFrames : Rat) * (1 - s.overlapFactor)))
    let supp : Int := jsRound (s.suppressionTimeMillis / s.frameDurationMillis)
    ({ s with
        freqDataQueue := [],
        timeDataQueue := if s.includeRawAudio then [] else s.timeDataQueue,
        tracker := { period := period, suppressionTime := supp,
                     counter := 0, suppressionOnset := none },
        frameIntervalTask := some () }, none)

/-- `BrowserFftFeatureExtractor.stop` (src/script.js lines 144-155): throws
illegal-state when no sampling task is running; otherwise cancels the task
(a field mutation that survives any later throw), disconnects the analyser
(external effect), and then calls `this.audioContext.close()` — a
`TypeError` whenever `audioContext` is `undefined`, and nothing in the
repository ever assigns it.  The `this.stream` cleanup after it is a no-op
here (`stream` is likewise never assigned, and its guard tolerates that). -/
def ExtractorState.stop (s : ExtractorState) :
    ExtractorState × Option JsError :=
  if s.frameIntervalTask.isNone then
    (s, some (JsError.illegalState "Cannot stop because there is no ongoing streaming activity."))
  else
    let s1 := { s with frameIntervalTask := none }
    match s.audioContext with
    | none => (s1, some (JsError.typeError "Cannot read properties of undefined (reading close)"))
    | some _ => (s1, none)

/-- `BrowserFftFeatureExtractor.onAudioFrame` (src/script.js lines 108-142),
one sampling tick.  Inputs: the frequency sample the analyser currently
reports, the time-domain sample (read only when `includeRawAudio`), and the
boolean the spectrogram callback returns (`shouldRest`).  Output: the state
after the tick and, when the tracker fired, the pair of tensors handed to
the callback (frequency tensor, and the optional raw-audio tensor). -/
def onAudioFrame (s : ExtractorState) (freqData timeData : List FVal)
    (shouldRest : Bool) :
    ExtractorState × Option (List FVal × Option (List FVal)) :=
  if freqData.head? = some FVal.negInf then
    (s, none)
  else
    let q2 := pushFrame s.numFrames s.freqDataQueue (freqData.take s.columnTruncateLength)
    let tq := if s.includeRawAudio then s.timeDataQueue ++ [timeData] else s.timeDataQueue
    let ticked := s.tracker.tick
    if ticked.2 then
      let freqTensor := getInputTensorFromFrequencyData (flattenQueue q2)
        [1, s.numFrames, s.columnTruncateLength, 1]
      let timeTensor := if s.includeRawAudio then
          some (getInputTensorFromFrequencyData (flattenQueue tq)
            [1, s.numFrames * s.fftSize])
        else none
      let tr2 := if shouldRest then ticked.1.suppress else ticked.1
      ({ s with freqDataQueue := q2, timeDataQueue := tq, tracker := tr2 },
        some (freqTensor, timeTensor))
    else
      ({ s with freqDataQueue := q2, timeDataQueue := tq, tracker := ticked.1 }, none)

/-- Feed a list of frequency samples through consecutive `onAudioFrame`
ticks (no raw audio, callback always answering `false`, as the demo's
callback does), collecting per tick the tensor the callback received, if
any. -/
def runFrames (s : ExtractorState) :
    List (List FVal) → ExtractorState × List (Option (List FVal × Option (List FVal)))
  | [] => (s, [])
  | f :: fs =>
    let step := onAudioFrame s f [] false
    let rest := runFrames step.1 fs
    (rest.1, step.2 :: rest.2)

/-- The score-aggregation globals of src/script.js: `predictionCounter`
(line 240/329) and the five per-class running sums `predictionSumArray`
(line 241/330). -/
structure AggState where
  predictionCounter : Nat
  predictionSumArray : List Rat
deriving DecidableEq, Repr

/-- The aggregation done by the demo's `spectrogramCallback` (src/script.js
lines 341-344): increment the firing counter and add each class's score to
its running sum (the sums and the score vector both have one entry per
class label). -/
def recordScores (st : AggState) (scores : List Rat) : AggState :=
  { predictionCounter := st.predictionCounter + 1,
    predictionSumArray := List.zipWith (fun a b => a + b) st.predictionSumArray scores }

/-- JavaScript division of a running sum by the firing count.  When the
divisor is 0 the JavaScript result is `NaN` (`0/0`) or `±Infinity`, i.e.
not a well-defined finite score; that outcome is modelled as `none`. -/
def jsDiv (a b : Rat) : Option Rat :=
  if b = 0 then none else some (a / b)

/-- `showMP3Result` (src/script.js lines 273-300), the finalisation step:
compute each class's displayed mean `predictionSumArray[i] /
predictionCounter`, then reset the counter and every per-class sum to
zero.  Returns the per-class means next to the reset state (the label/DOM
writes and the argmax presentation are external effects). -/
def showMP3Result (st : AggState) : List (Option Rat) × AggState :=
  (st.predictionSumArray.map (fun s => jsDiv s (st.predictionCounter : Rat)),
   { predictionCounter := 0,
     predictionSumArray := List.replicate st.predictionSumArray.length 0 })

/-- Mean of `tf.moments`: the arithmetic mean over all elements of the
tensor. -/
noncomputable def momentsMean (xs : List Real) : Real :=
  xs.sum / (xs.length : Real)

/-- Variance of `tf.moments`: the mean squared deviation over all elements
of the tensor. -/
noncomputable def momentsVariance (xs : List Real) : Real :=
  (xs.map (fun v => (v - momentsMean xs) ^ 2)).sum / (xs.length : Real)

/-- `normalize` (src/script.js lines 15-21): elementwise
`(x - mean) / (sqrt(variance) + epsilon)`, with mean and variance taken
over all elements and `epsilon = tf.backend().epsilon()` a positive
platform constant.  A pure function of the input tensor, modelled over the
reals because of the square root. -/
noncomputable def MLT.normalize (epsilon : Real) (xs : List Real) : List Real :=
  xs.map (fun v => (v - momentsMean xs) / (Real.sqrt (momentsVariance xs) + epsilon))

/-- The configuration object handed to the `BrowserFftFeatureExtractor`
constructor.  `hasSpectrogramCallback` records whether the callback field
is present (its value is opaque here); `sampleRateHz`, `fftSize` and
`columnTruncateLength` are optional (`none` = omitted/undefined). -/
structure ExtractorConfig where
  hasSpectrogramCallback : Bool
  numFramesPerSpectrogram : Rat
  suppressionTimeMillis : Rat
  sampleRateHz : Option Rat
  fftSize : Option Rat
  columnTruncateLength : Option Rat
  overlapFactor : Rat
  includeRawAudio : Bool
deriving DecidableEq, Repr

/-- The configuration-derived fields the constructor stores (src/script.js
lines 67-76). -/
structure ExtractorFields where
  suppressionTimeMillis : Rat
  numFrames : Rat
  sampleRateHz : Rat
  fftSize : Rat
  frameDurationMillis : Rat
  columnTruncateLength : Rat
  overlapFactor : Rat
  includeRawAudio : Bool
deriving DecidableEq, Repr

/-- JavaScript `v || d` on an optional numeric field: the default applies
when the field is omitted (`undefined`) or holds the falsy number 0. -/
def jsOrDefault (v : Option Rat) (d : Rat) : Rat :=
  match v with
  | none => d
  | some x => if x = 0 then d else x

/-- The `BrowserFftFeatureExtractor` constructor (src/script.js lines
51-86): reject a missing config object, a missing callback, a non-positive
`numFramesPerSpectrogram`, a negative `suppressionTimeMillis`, an
`overlapFactor` outside `[0, 1)`, and a `columnTruncateLength` exceeding
`fftSize`; default `sampleRateHz` to 44100, `fftSize` to 1024 and
`columnTruncateLength` to the (possibly defaulted) `fftSize`. -/
def mkBrowserFftFeatureExtractor (config : Option ExtractorConfig) :
    Except String ExtractorFields :=
  match config with
  | none =>
    Except.error "Required configuration object is missing for BrowserFftFeatureExtractor constructor"
  | some c =>
    if c.hasSpectrogramCallback = false then
      Except.error "spectrogramCallback cannot be null or undefined"
    else if c.numFramesPerSpectrogram ≤ 0 then
      Except.error "Invalid value in numFramesPerSpectrogram"
    else if c.suppressionTimeMillis < 0 then
      Except.error "Expected suppressionTimeMillis to be >= 0"
    else
      let sampleRateHz := jsOrDefault c.sampleRateHz 44100
      let fftSize := jsOrDefault c.fftSize 1024
      let frameDurationMillis := fftSize / sampleRateHz * 1000
      let columnTruncateLength := jsOrDefault c.columnTruncateLength fftSize
      if ¬ (0 ≤ c.overlapFactor ∧ c.overlapFactor < 1) then
        Except.error "Expected overlapFactor to be >= 0 and < 1"
      else if fftSize < columnTruncateLength then
        Except.error "columnTruncateLength exceeds fftSize"
      else
        Except.ok { suppressionTimeMillis := c.suppressionTimeMillis,
                    numFrames := c.numFramesPerSpectrogram,
                    sampleRateHz := sampleRateHz,
                    fftSize := fftSize,
                    frameDurationMillis := frameDurationMillis,
                    columnTruncateLength := columnTruncateLength,
                    overlapFactor := c.overlapFactor,
                    includeRawAudio := c.includeRawAudio }

/-- An idle extractor configured like the end-to-end scenario of the spec:
`numFramesPerSpectrogram = 40`, `overlapFactor = 0.5` (so `start` creates a
`Tracker` of period 20), `suppressionTimeMillis = 0`, no raw audio, and
frame width (`columnTruncateLength`) 1.  `audioContext` is `none` because
nothing in the repository assigns that field; the tracker field holds the
placeholder that `start` overwrites. -/
def demoIdle : ExtractorState :=
  { numFrames := 40,
    columnTruncateLength := 1,
    fftSize := 1024,
    sampleRateHz := 44100,
    frameDurationMillis := 1024 / 44100 * 1000,
    overlapFactor := 1 / 2,
    suppressionTimeMillis := 0,
    includeRawAudio := false,
    frameIntervalTask := none,
    audioContext := none,
    freqDataQueue := [],
    timeDataQueue := [],
    tracker := { period := 1, suppressionTime := 0, counter := 0, suppressionOnset := none } }

/-- The demo extractor right after a successful `start`. -/
def demoStarted : ExtractorState := (ExtractorState.start demoIdle).1


/-! ## General lemmas about the embedded definitions -/

theorem tickCount_cons_tick (es : List TEvent) :
    tickCount (TEvent.tick :: es) = tickCount es + 1 := by
  simp [tickCount, List.countP_cons]

theorem tickCount_cons_suppress (es : List TEvent) :
    tickCount (TEvent.suppress :: es) = tickCount es := by
  simp [tickCount, List.countP_cons]

theorem tickCount_nonneg (es : List TEvent) : 0 ≤ tickCount es := by
  simp [tickCount]

/-- Running a call history only adds `tickCount` to the counter, never
changes period or suppression time, and leaves as suppression onset the
counter value at the last `suppress` (or the initial onset when the history
has none). -/
theorem tracker_run_fields (es : List TEvent) (t : Tracker) :
    (t.run es).period = t.period ∧
    (t.run es).suppressionTime = t.suppressionTime ∧
    (t.run es).counter = t.counter + tickCount es ∧
    (t.run es).suppressionOnset =
      (match lastOnset es with
       | some o => some (t.counter + o)
       | none => t.suppressionOnset) := by
  induction es generalizing t with
  | nil => simp [Tracker.run, tickCount, lastOnset]
  | cons e es ih =>
    cases e with
    | tick =>
      have h := ih (t.tick.1)
      simp only [Tracker.run, Tracker.tick] at h ⊢
      refine ⟨h.1, h.2.1, ?_, ?_⟩
      · rw [h.2.2.1, tickCount_cons_tick]; ring
      · rw [h.2.2.2, lastOnset]
        cases ho : lastOnset es <;> simp [ho] <;> ring_nf
    | suppress =>
      have h := ih (t.suppress)
      simp only [Tracker.run, Tracker.suppress] at h ⊢
      refine ⟨h.1, h.2.1, ?_, ?_⟩
      · rw [h.2.2.1, tickCount_cons_suppress]
      · rw [h.2.2.2, lastOnset]
        cases ho : lastOnset es <;> simp [ho]

/-! ## Claim theorems -/

/-- Claim C2: for every period P > 0 and suppression duration S ≥ 0 and
every sequence of tick() and suppress() calls on a tracker built with
them, the next tick() returns true exactly when the incremented counter is
a multiple of P and either no suppress() has been recorded or the ticks
elapsed since the last recorded suppression onset strictly exceed S. -/
theorem tracker_fires_iff (P S : Int) (hP : 0 < P) (hS : 0 ≤ S)
    (t0 : Tracker) (hmk : Tracker.make P (some S) = Except.ok t0)
    (es : List TEvent) :
    ((t0.run es).tick).2 = true ↔
      (P ∣ (tickCount es + 1) ∧
        (lastOnset es = none ∨
          ∃ o, lastOnset es = some o ∧ tickCount es + 1 - o > S)) := by
  have ht0 : t0 = { period := P, suppressionTime := S, counter := 0,
                    suppressionOnset := none } := by
    rw [Tracker.make, if_pos hP] at hmk
    exact (Except.ok.injEq _ _).mp hmk.symm
  subst ht0
  obtain ⟨hper, hsup, hcnt, hons⟩ := tracker_run_fields es
    { period := P, suppressionTime := S, counter := 0, suppressionOnset := none }
  simp only [Tracker.tick, jsRem]
  rw [hper, hsup, hcnt, hons]
  have hc : (0 : Int) + tickCount es + 1 = tickCount es + 1 := by ring
  have hmod : Int.tmod (tickCount es + 1) P = (tickCount es + 1) % P :=
    Int.tmod_eq_emod (by have := tickCount_nonneg es; omega) (le_of_lt hP)
  cases ho : lastOnset es with
  | none =>
    simp only [hc, ho]
    rw [hmod]
    constructor
    · intro h
      refine ⟨Int.dvd_of_emod_eq_zero ?_, Or.inl (by simp)⟩
      simpa using h
    · intro h
      simpa using Int.emod_eq_zero_of_dvd h.1
  | some o =>
    simp only [hc, ho]
    rw [hmod]
    constructor
    · intro h
      simp only [Bool.and_eq_true, beq_iff_eq, decide_eq_true_eq] at h
      refine ⟨Int.dvd_of_emod_eq_zero h.1, Or.inr ⟨o, rfl, by simpa using h.2⟩⟩
    · rintro ⟨hdvd, h⟩
      rcases h with h | ⟨o2, ho2, hgt⟩
      · exact absurd h (by simp)
      · injection ho2 with ho2
        subst ho2
        simp only [Bool.and_eq_true, beq_iff_eq, decide_eq_true_eq]
        exact ⟨Int.emod_eq_zero_of_dvd hdvd, by simpa using hgt⟩

/-- Witness for C2: the spec's own example, P = 3, S = 2, three ticks, a
suppress at counter 3, then two more ticks; the 6th tick fires since
6 % 3 = 0 and 6 - 3 = 3 > 2. -/
theorem tracker_fires_iff_witness :
    (0 : Int) < 3 ∧ (0 : Int) ≤ 2 ∧
    ((Tracker.run { period := 3, suppressionTime := 2, counter := 0, suppressionOnset := none }
        [TEvent.tick, TEvent.tick, TEvent.tick, TEvent.suppress,
         TEvent.tick, TEvent.tick]).tick).2 = true :=
  ⟨by norm_num, by norm_num,
    (tracker_fires_iff 3 2 (by norm_num) (by norm_num)
      { period := 3, suppressionTime := 2, counter := 0, suppressionOnset := none } rfl
      [TEvent.tick, TEvent.tick, TEvent.tick, TEvent.suppress,
       TEvent.tick, TEvent.tick]).mpr
      ⟨⟨2, by decide⟩, Or.inr ⟨3, by decide, by decide⟩⟩⟩

/-- Counterexample for C3: constructing a Tracker with period 1 and
suppression duration -1 succeeds — the constructor's assert checks only
the period, so a negative suppression duration is NOT rejected. -/
theorem tracker_make_negative_suppression_cx :
    Tracker.make 1 (some (-1)) =
      Except.ok { period := 1, suppressionTime := -1, counter := 0,
                  suppressionOnset := none } := rfl

/-- Claim C3 as amended: Tracker construction succeeds exactly when the
period is positive; the suppression duration is not validated (a negative
one is accepted and stored). -/
theorem tracker_make_ok_iff (P : Int) (s : Option Int) :
    (∃ t, Tracker.make P s = Except.ok t) ↔ 0 < P := by
  rw [Tracker.make]
  by_cases h : 0 < P
  · simp [h]
  · simp [h]

/-- Witness for C3's amended theorem at a concrete period. -/
theorem tracker_make_ok_iff_witness :
    ∃ t, Tracker.make 3 (some 0) = Except.ok t :=
  (tracker_make_ok_iff 3 (some 0)).mpr (by norm_num)

/-- Folding pushes from an empty queue keeps exactly the last `cap` frames,
in push order. -/
theorem pushFrame_foldl_drop (cap : Nat) (hcap : 0 < cap)
    (fs : List (List FVal)) :
    fs.foldl (pushFrame cap) [] = fs.drop (fs.length - cap) := by
  induction fs using List.reverseRecOn with
  | nil => simp
  | append_singleton fs f ih =>
    rw [List.foldl_append, List.foldl_cons, List.foldl_nil, ih]
    rw [pushFrame]
    have hdl : (fs.drop (fs.length - cap)).length = fs.length - (fs.length - cap) :=
      List.length_drop _ _
    by_cases hlt : fs.length < cap
    · have h0 : fs.length - cap = 0 := by omega
      have h0' : fs.length + 1 - cap = 0 := by omega
      rw [h0, List.drop_zero] at hdl ⊢
      rw [if_neg (by simp; omega)]
      simp [h0']
    · have hge : cap ≤ fs.length := by omega
      have hlen : (fs.drop (fs.length - cap)).length = cap := by omega
      rw [if_pos (by simp [hlen])]
      have hne : fs.drop (fs.length - cap) ≠ [] := by
        intro h
        rw [h] at hlen
        simp at hlen
        omega
      obtain ⟨a, as, has⟩ := List.exists_cons_of_ne_nil hne
      have htail : (fs.drop (fs.length - cap) ++ [f]).tail
          = (fs.drop (fs.length - cap)).tail ++ [f] := by
        rw [has]
        simp
      rw [htail, List.tail_drop]
      have harith : fs.length - cap + 1 = fs.length + 1 - cap := by omega
      rw [harith]
      have hlen2 : (fs ++ [f]).length - cap = fs.length + 1 - cap := by
        simp
      rw [hlen2, List.drop_append_of_le_length (by omega)]

/-- Claim C5: for every sequence of pushes the frequency-frame queue never
exceeds its capacity `numFramesPerSpectrogram`; once `capacity` pushes have
happened the length is exactly `capacity` and stays there, each further
push evicts exactly the oldest frame, the queue always holds the last
`capacity` frames in push order (FIFO), and every non-silent `onAudioFrame`
tick updates `freqDataQueue` by exactly this push operation. -/
theorem frame_queue_bounded_fifo (cap : Nat) (hcap : 0 < cap)
    (fs : List (List FVal)) (f : List FVal)
    (s : ExtractorState) (freqData timeData : List FVal) (b : Bool)
    (hns : freqData.head? ≠ some FVal.negInf) :
    (fs.foldl (pushFrame cap) [] = fs.drop (fs.length - cap))
  ∧ (fs.foldl (pushFrame cap) []).length ≤ cap
  ∧ (cap ≤ fs.length → (fs.foldl (pushFrame cap) []).length = cap)
  ∧ (cap ≤ fs.length →
      pushFrame cap (fs.foldl (pushFrame cap) []) f
        = (fs.foldl (pushFrame cap) []).tail ++ [f])
  ∧ (onAudioFrame s freqData timeData b).1.freqDataQueue
      = pushFrame s.numFrames s.freqDataQueue (freqData.take s.columnTruncateLength) := by
  have hmain := pushFrame_foldl_drop cap hcap fs
  have hlen : (fs.foldl (pushFrame cap) []).length = fs.length - (fs.length - cap) := by
    rw [hmain]
    exact List.length_drop _ _
  refine ⟨hmain, by omega, fun h => by omega, fun h => ?_, ?_⟩
  · have hfull : (fs.foldl (pushFrame cap) []).length = cap := by omega
    rw [pushFrame]
    rw [if_pos (by simp [hfull])]
    have hne : fs.foldl (pushFrame cap) [] ≠ [] := by
      intro hnil
      rw [hnil] at hfull
      simp at hfull
      omega
    obtain ⟨a, as, has⟩ := List.exists_cons_of_ne_nil hne
    rw [has]
    simp
  · rw [onAudioFrame, if_neg hns]
    by_cases hf : (s.tracker.tick).2 <;> simp [hf]

/-- Witness for C5: capacity 2, three pushes — the queue holds the last two
frames in push order. -/
theorem frame_queue_bounded_fifo_witness :
    [[FVal.fin 1], [FVal.fin 2], [FVal.fin 3]].foldl (pushFrame 2) []
      = [[FVal.fin 2], [FVal.fin 3]] :=
  ((frame_queue_bounded_fifo 2 (by norm_num)
      [[FVal.fin 1], [FVal.fin 2], [FVal.fin 3]] [FVal.fin 4]
      demoIdle [FVal.fin 1] [] false (by decide)).1).trans (by decide)

/-- Writing `s` at offset `A.length` into `A ++ B` keeps `A`, then `s`,
then the tail of `B` past `s`. -/
theorem setAt_append (A B s : List FVal) :
    setAt (A ++ B) s A.length = A ++ s ++ B.drop s.length := by
  rw [setAt, List.take_left, List.drop_append]

/-- The `forEach` loop of `flattenQueue`: writing equal-width frames one
after another into a zeroed buffer, after an already-assembled prefix `A`,
concatenates them. -/
theorem writeFrames_assemble (W : Nat) (qs : List (List FVal))
    (hW : ∀ f ∈ qs, f.length = W) :
    ∀ (start : Nat) (A : List FVal), A.length = start * W →
      writeFrames W start (A ++ List.replicate (qs.length * W) (FVal.fin 0)) qs
        = A ++ qs.flatten := by
  induction qs with
  | nil => intro start A _; simp [writeFrames]
  | cons f fs ih =>
    intro start A hA
    have hf : f.length = W := hW f (by simp)
    have hfs : ∀ g ∈ fs, g.length = W := fun g hg => hW g (by simp [hg])
    rw [writeFrames]
    have hrep : List.replicate ((f :: fs).length * W) (FVal.fin 0)
        = List.replicate W (FVal.fin 0) ++ List.replicate (fs.length * W) (FVal.fin 0) := by
      rw [← List.replicate_add]
      congr 1
      simp
      ring
    rw [hrep, show start * W = A.length from hA.symm, setAt_append]
    have hdrop : (List.replicate W (FVal.fin 0)
        ++ List.replicate (fs.length * W) (FVal.fin 0)).drop f.length
        = List.replicate (fs.length * W) (FVal.fin 0) := by
      rw [hf]
      exact List.drop_left' (by simp)
    rw [hdrop]
    rw [show A ++ f ++ List.replicate (fs.length * W) (FVal.fin 0)
        = (A ++ f) ++ List.replicate (fs.length * W) (FVal.fin 0) from rfl]
    rw [ih hfs (start + 1) (A ++ f) (by simp [hA, hf]; ring)]
    simp

/-- `flattenQueue` on a non-empty queue of equal-width frames concatenates
the frames in queue order. -/
theorem flattenQueue_eq_flatten (queue : List (List FVal)) (W : Nat)
    (hne : queue ≠ []) (hW : ∀ f ∈ queue, f.length = W) :
    flattenQueue queue = queue.flatten := by
  obtain ⟨q0, rest, rfl⟩ := List.exists_cons_of_ne_nil hne
  have hq0 : q0.length = W := hW q0 (by simp)
  rw [flattenQueue]
  simp only [List.headD_cons, hq0]
  have h := writeFrames_assemble W (q0 :: rest) hW 0 [] (by simp)
  simpa using h

/-- Claim C7: flattening a full queue of `capacity` frames of width `W`
yields exactly `capacity * W` values concatenated in push order, and the
tensor built from a buffer no longer than the target shape is right-aligned
in a left-zero-padded buffer of the shape's size. -/
theorem flatten_and_tensor_spec (queue : List (List FVal)) (capacity W : Nat)
    (hlen : queue.length = capacity) (hpos : 0 < capacity)
    (hW : ∀ f ∈ queue, f.length = W)
    (freqData : List FVal) (shape : List Nat)
    (hfit : freqData.length ≤ sizeFromShape shape) :
    flattenQueue queue = queue.flatten
  ∧ (flattenQueue queue).length = capacity * W
  ∧ getInputTensorFromFrequencyData freqData shape
      = List.replicate (sizeFromShape shape - freqData.length) (FVal.fin 0) ++ freqData := by
  have hne : queue ≠ [] := by
    intro h
    rw [h] at hlen
    simp at hlen
    omega
  have hflat := flattenQueue_eq_flatten queue W hne hW
  refine ⟨hflat, ?_, ?_⟩
  · rw [hflat, List.length_flatten]
    have hmap : queue.map List.length = List.replicate capacity W := by
      apply List.eq_replicate_iff.mpr
      constructor
      · simp [hlen]
      · intro b hb
        obtain ⟨g, hg, rfl⟩ := List.mem_map.mp hb
        exact hW g hg
    rw [hmap, List.sum_replicate, smul_eq_mul]
  · rw [getInputTensorFromFrequencyData]
    have hsplit : List.replicate (sizeFromShape shape) (FVal.fin 0)
        = List.replicate (sizeFromShape shape - freqData.length) (FVal.fin 0)
          ++ List.replicate freqData.length (FVal.fin 0) := by
      rw [← List.replicate_add]
      congr 1
      omega
    rw [hsplit]
    have happ := setAt_append
      (List.replicate (sizeFromShape shape - freqData.length) (FVal.fin 0))
      (List.replicate freqData.length (FVal.fin 0)) freqData
    simp only [List.length_replicate] at happ
    rw [happ]
    simp

/-- Witness for C7: two width-1 frames flatten to their concatenation, and
a 1-element buffer placed into a shape of size 4 is right-aligned after
three zeros. -/
theorem flatten_and_tensor_spec_witness :
    flattenQueue [[FVal.fin 1], [FVal.fin 2]] = [FVal.fin 1, FVal.fin 2]
  ∧ getInputTensorFromFrequencyData [FVal.fin 5] [1, 4, 1, 1]
      = [FVal.fin 0, FVal.fin 0, FVal.fin 0, FVal.fin 5] := by
  have h := flatten_and_tensor_spec [[FVal.fin 1], [FVal.fin 2]] 2 1 rfl
    (by norm_num) (by decide) [FVal.fin 5] [1, 4, 1, 1] (by decide)
  exact ⟨h.1.trans (by decide), h.2.2.trans (by decide)⟩

/-- Claim C8: `normalize` is a pure function of its input returning
elementwise `(x - mean) / (sqrt(variance) + epsilon)` with the moments
taken over all elements, and on a constant input tensor the output is all
zeros (the positive epsilon keeps the denominator away from 0). -/
theorem normalize_spec (epsilon : Real) (heps : 0 < epsilon) (xs : List Real) :
    MLT.normalize epsilon xs
      = xs.map (fun v => (v - momentsMean xs) / (Real.sqrt (momentsVariance xs) + epsilon))
  ∧ ∀ c : Real, (∀ v ∈ xs, v = c) →
      MLT.normalize epsilon xs = List.replicate xs.length 0 := by
  constructor
  · rfl
  · intro c hc
    rcases Nat.eq_zero_or_pos xs.length with h0 | hpos
    · rw [MLT.normalize, List.length_eq_zero.mp h0]
      simp
    · have hn : (xs.length : Real) ≠ 0 := by
        exact_mod_cast Nat.pos_iff_ne_zero.mp hpos
      have hsum : xs.sum = xs.length • c := List.sum_eq_card_nsmul xs c hc
      have hmean : momentsMean xs = c := by
        rw [momentsMean, hsum, nsmul_eq_mul]
        exact mul_div_cancel_left₀ c hn
      have hsq : xs.map (fun v => (v - momentsMean xs) ^ 2)
          = xs.map (fun _ => (0 : Real)) := by
        apply List.map_congr_left
        intro v hv
        rw [hmean, hc v hv]
        ring
      have hvar : momentsVariance xs = 0 := by
        rw [momentsVariance, hsq]
        simp
      rw [MLT.normalize, hmean, hvar, Real.sqrt_zero, zero_add]
      have hz : xs.map (fun v => (v - c) / epsilon)
          = xs.map (fun _ => (0 : Real)) := by
        apply List.map_congr_left
        intro v hv
        rw [hc v hv]
        simp
      rw [hz]
      simp [List.map_const]

/-- Witness for C8: with epsilon 1, the constant tensor `[2, 2, 2]`
normalizes to all zeros. -/
theorem normalize_spec_witness :
    MLT.normalize 1 [(2 : Real), 2, 2] = [0, 0, 0] := by
  have h := (normalize_spec 1 one_pos [(2 : Real), 2, 2]).2 2 (by
    intro v hv
    simpa using hv)
  simpa using h

/-- Folding recorded score vectors adds one to the firing counter per
record. -/
theorem recordScores_foldl_counter (recs : List (List Rat)) :
    ∀ st : AggState,
      (recs.foldl recordScores st).predictionCounter
        = st.predictionCounter + recs.length := by
  induction recs with
  | nil => intro st; simp
  | cons r rs ih =>
    intro st
    rw [List.foldl_cons, ih]
    simp [recordScores]
    omega

/-- Counterexample for C4: finalizing with zero recordings divides each
class's sum 0 by the count 0, a JavaScript `0/0 = NaN` — every displayed
entry is the undefined-value sentinel, not a defined zero vector. -/
theorem finalize_zero_count_nan_cx :
    (showMP3Result { predictionCounter := 0,
                     predictionSumArray := List.replicate 5 0 }).1
      = List.replicate 5 none
  ∧ List.replicate 5 (none : Option Rat) ≠ List.replicate 5 (some 0) := by
  constructor
  · simp [showMP3Result, jsDiv]
  · decide

/-- Claim C4 as amended: finalize with a positive firing count returns each
class's running sum divided by the count and resets counter and sums to
zero; finalize with zero recordings raises no error but every per-class
entry is the NaN of `0/0` (no defined numeric mean), and the state is still
reset; after N recorded score vectors the firing counter is N. -/
theorem score_finalize_spec (st : AggState) (recs : List (List Rat)) (k : Nat) :
    (0 < st.predictionCounter →
      (showMP3Result st).1
        = st.predictionSumArray.map
            (fun s => some (s / (st.predictionCounter : Rat))))
  ∧ (st.predictionCounter = 0 →
      (showMP3Result st).1
        = st.predictionSumArray.map (fun _ => (none : Option Rat)))
  ∧ (showMP3Result st).2.predictionCounter = 0
  ∧ (showMP3Result st).2.predictionSumArray
      = List.replicate st.predictionSumArray.length 0
  ∧ (recs.foldl recordScores
      { predictionCounter := 0, predictionSumArray := List.replicate k 0
      }).predictionCounter = recs.length := by
  refine ⟨?_, ?_, rfl, rfl, ?_⟩
  · intro hpos
    have hne : ((st.predictionCounter : Rat)) ≠ 0 := by
      exact_mod_cast Nat.pos_iff_ne_zero.mp hpos
    rw [showMP3Result]
    apply List.map_congr_left
    intro s _
    rw [jsDiv, if_neg hne]
  · intro hz
    rw [showMP3Result, hz]
    apply List.map_congr_left
    intro s _
    rw [jsDiv]
    simp
  · rw [recordScores_foldl_counter]
    simp

/-- Witness for C4's amended theorem: two recordings with sums `[4, 6]`
finalize to means `[2, 3]`, zero recordings finalize to NaN entries, and
the reset zeroes the state. -/
theorem score_finalize_spec_witness :
    (showMP3Result { predictionCounter := 2, predictionSumArray := [4, 6] }).1
      = [some 2, some 3]
  ∧ (showMP3Result { predictionCounter := 0, predictionSumArray := [0] }).1
      = [none] := by
  constructor
  · have h := (score_finalize_spec
      { predictionCounter := 2, predictionSumArray := [4, 6] } [] 0).1 (by norm_num)
    rw [h]
    norm_num
  · have h := (score_finalize_spec
      { predictionCounter := 0, predictionSumArray := [0] } [] 0).2.1 rfl
    rw [h]
    rfl

/-- Claim C6: a sampling tick whose frequency sample carries the silence
sentinel (the analyser reports `-Infinity`) is skipped entirely: no frame
is pushed to either queue, the tracker is not advanced, no callback is
invoked and no error is raised — the whole extractor state is returned
unchanged. -/
theorem silent_sample_skips_tick (s : ExtractorState)
    (freqData timeData : List FVal) (b : Bool)
    (h : freqData.head? = some FVal.negInf) :
    onAudioFrame s freqData timeData b = (s, none) := by
  rw [onAudioFrame, if_pos h]

/-- Witness for C6: a silent sample leaves the started demo extractor
untouched. -/
theorem silent_sample_skips_tick_witness :
    onAudioFrame demoStarted [FVal.negInf, FVal.fin 3] [] false
      = (demoStarted, none) :=
  silent_sample_skips_tick demoStarted [FVal.negInf, FVal.fin 3] [] false rfl

/-- `start` on the demo configuration: `period = max(1, round(40 * 0.5)) =
20` and suppression `round(0 / frameDuration) = 0`. -/
theorem demoStarted_eq :
    demoStarted =
      { numFrames := 40,
        columnTruncateLength := 1,
        fftSize := 1024,
        sampleRateHz := 44100,
        frameDurationMillis := 1024 / 44100 * 1000,
        overlapFactor := 1 / 2,
        suppressionTimeMillis := 0,
        includeRawAudio := false,
        frameIntervalTask := some (),
        audioContext := none,
        freqDataQueue := [],
        timeDataQueue := [],
        tracker := { period := 20, suppressionTime := 0, counter := 0,
                     suppressionOnset := none } } := by
  show (ExtractorState.start demoIdle).1 = _
  rw [ExtractorState.start]
  norm_num [demoIdle, jsRound]

set_option maxRecDepth 4000 in
/-- Counterexample for C1: in the spec's own scenario (capacity 40, period
20) the callback fires for the first time at tick 20 — when the queue holds
only 20 of 40 frames — not at tick 40: `onAudioFrame` never checks that the
queue has reached capacity before invoking the callback. -/
theorem fire_before_full_queue_cx :
    demoStarted.numFrames = 40
  ∧ demoStarted.tracker.period = 20
  ∧ (runFrames demoStarted (List.replicate 19 [FVal.fin 1])).2.countP
      (fun o => o.isSome) = 0
  ∧ (runFrames demoStarted (List.replicate 20 [FVal.fin 1])).2.countP
      (fun o => o.isSome) = 1
  ∧ (runFrames demoStarted (List.replicate 20 [FVal.fin 1])).1.freqDataQueue.length
      = 20 := by
  rw [demoStarted_eq]
  refine ⟨rfl, rfl, by decide, by decide, by decide⟩

/-- Claim C1 as amended: on a non-silent sampling tick the scoring callback
is invoked exactly when the Tracker signals fire — the queue's fill level
is not consulted — so with capacity 40 and period 20 the first invocation
happens at tick 20, on a queue holding only 20 frames. -/
theorem callback_fires_iff_tracker_fires (s : ExtractorState)
    (freqData timeData : List FVal) (b : Bool)
    (h : freqData.head? ≠ some FVal.negInf) :
    ((onAudioFrame s freqData timeData b).2).isSome = (s.tracker.tick).2 := by
  rw [onAudioFrame, if_neg h]
  by_cases hf : (s.tracker.tick).2 <;> simp [hf]

/-- Witness for C1's amended theorem: on the started demo extractor the
first tick does not fire (1 is not a multiple of 20), and the callback is
accordingly not invoked. -/
theorem callback_fires_iff_tracker_fires_witness :
    ((onAudioFrame demoStarted [FVal.fin 1] [] false).2).isSome
      = (demoStarted.tracker.tick).2 :=
  callback_fires_iff_tracker_fires demoStarted [FVal.fin 1] [] false (by decide)

/-- For claim C9 (code bug): on the idle demo extractor `start` succeeds;
`start` on a started extractor fails with the illegal-state error and
leaves the state unchanged; `stop` while idle fails with the illegal-state
error; but the FIRST `stop` on a started extractor, after cancelling the
sampling task (the task handle is cleared), throws a `TypeError` because it
calls `close()` on `this.audioContext`, a field no code in the repository
ever assigns — it does not succeed as the claim states; a second `stop`
then fails with the illegal-state error since the task was cancelled. -/
theorem stop_lifecycle_behavior :
    (demoIdle.start).2 = none
  ∧ (demoStarted.start).1 = demoStarted
  ∧ (demoStarted.start).2
      = some (JsError.illegalState "Cannot start already-started BrowserFftFeatureExtractor")
  ∧ (demoIdle.stop).2
      = some (JsError.illegalState "Cannot stop because there is no ongoing streaming activity.")
  ∧ (demoStarted.stop).2
      = some (JsError.typeError "Cannot read properties of undefined (reading close)")
  ∧ (demoStarted.stop).1.frameIntervalTask = none
  ∧ ((demoStarted.stop).1.stop).2
      = some (JsError.illegalState "Cannot stop because there is no ongoing streaming activity.") :=
  ⟨rfl, rfl, rfl, rfl, rfl, rfl, rfl⟩

/-- Claim C10: omitted optional construction parameters are silently
defaulted, not rejected: a Tracker built with a null suppression duration
behaves exactly as one built with 0, and an extractor configuration that
omits `sampleRateHz`, `fftSize` and `columnTruncateLength` is accepted with
44100, 1024 and the (defaulted) `fftSize` respectively — the
`columnTruncateLength ≤ fftSize` validation then passes on the defaulted
values. -/
theorem constructor_defaults_spec (c : ExtractorConfig)
    (hcb : c.hasSpectrogramCallback = true)
    (hnf : 0 < c.numFramesPerSpectrogram)
    (hsup : 0 ≤ c.suppressionTimeMillis)
    (hov : 0 ≤ c.overlapFactor ∧ c.overlapFactor < 1)
    (hsr : c.sampleRateHz = none) (hff : c.fftSize = none)
    (hct : c.columnTruncateLength = none) :
    mkBrowserFftFeatureExtractor (some c)
      = Except.ok { suppressionTimeMillis := c.suppressionTimeMillis,
                    numFrames := c.numFramesPerSpectrogram,
                    sampleRateHz := 44100,
                    fftSize := 1024,
                    frameDurationMillis := 1024 / 44100 * 1000,
                    columnTruncateLength := 1024,
                    overlapFactor := c.overlapFactor,
                    includeRawAudio := c.includeRawAudio }
  ∧ ∀ P : Int, Tracker.make P none = Tracker.make P (some 0) := by
  constructor
  · rw [mkBrowserFftFeatureExtractor, hsr, hff, hct]
    rw [if_neg (by rw [hcb]; simp)]
    rw [if_neg (not_le.mpr hnf)]
    rw [if_neg (not_lt.mpr hsup)]
    rw [if_neg (by simp [hov.1, hov.2])]
    rw [jsOrDefault, jsOrDefault, jsOrDefault]
    norm_num
  · intro P
    rfl

/-- Witness for C10: a concrete configuration omitting the three optional
numeric fields is accepted with the defaulted values. -/
theorem constructor_defaults_spec_witness :
    mkBrowserFftFeatureExtractor
      (some { hasSpectrogramCallback := true,
              numFramesPerSpectrogram := 40,
              suppressionTimeMillis := 0,
              sampleRateHz := none,
              fftSize := none,
              columnTruncateLength := none,
              overlapFactor := 1 / 2,
              includeRawAudio := false })
      = Except.ok { suppressionTimeMillis := 0,
                    numFrames := 40,
                    sampleRateHz := 44100,
                    fftSize := 1024,
                    frameDurationMillis := 1024 / 44100 * 1000,
                    columnTruncateLength := 1024,
                    overlapFactor := 1 / 2,
                    includeRawAudio := false } :=
  (constructor_defaults_spec
    { hasSpectrogramCallback := true,
      numFramesPerSpectrogram := 40,
      suppressionTimeMillis := 0,
      sampleRateHz := none,
      fftSize := none,
      columnTruncateLength := none,
      overlapFactor := 1 / 2,
      includeRawAudio := false }
    rfl (by norm_num) (by norm_num) (by norm_num) rfl rfl rfl).1
